import Mathlib

/-!
Formal model of the star-history aggregation pipeline of
`src/streamlit_app.py`, together with proofs of its specified properties.

Calendar dates are modelled as proleptic-Gregorian ordinals (`Int`), exactly
the value Python's `datetime.date.toordinal` returns; `timedelta(days = i)`
is then addition of `i` and date comparison is integer comparison.  The
ISO-8601 date strings the script stores (`d.isoformat()`) are in bijection
with these ordinals, so a `Counter` over the strings is modelled as a
multiset count over the ordinals.
-/

/-- Gregorian leap-year test, as in the `calendar` module. -/
def isLeap (y : Nat) : Bool :=
  (y % 4 == 0 && y % 100 != 0) || y % 400 == 0

/-- Days in the months strictly before month `m` (1-based) of a year,
counting the leap day when `leap` is set. -/
def daysBeforeMonth (m : Nat) (leap : Bool) : Nat :=
  let base :=
    match m with
    | 1 => 0 | 2 => 31 | 3 => 59 | 4 => 90 | 5 => 120 | 6 => 151
    | 7 => 181 | 8 => 212 | 9 => 243 | 10 => 273 | 11 => 304 | _ => 334
  if leap && m > 2 then base + 1 else base

/-- Proleptic-Gregorian ordinal of the date `y-m-d`
(`datetime.date(y, m, d).toordinal()` in Python); `0001-01-01` is day 1. -/
def dateOrdinal (y m d : Nat) : Int :=
  ((365 * (y - 1) + (y - 1) / 4 - (y - 1) / 100 + (y - 1) / 400
      + daysBeforeMonth m (isLeap y) + d : Nat) : Int)

/-! ### HTTP JSON fetcher (`fetch_json`, `fetch_json_with_headers`)

The network and the JSON decoder are external to the script; what the two
fetchers add is the `try/except` normalisation of every failure into the
`{"__error__": msg}` dictionary.  An `HttpOutcome` is the result of the
`urlopen` + `json.load` body: a decoded body, an `HTTPError` (non-2xx
status, carrying code and reason), or any other raised exception
(`URLError`, timeout, `JSONDecodeError`, ...) carrying its `str(e)`. -/

/-- A `starred_at` string as classified by the external parse
`datetime.fromisoformat(sa.replace("Z", "+00:00"))`: either a valid
ISO-8601 instant carrying the calendar date `.date()` yields, or a
malformed string on which `fromisoformat` raises `ValueError`. -/
inductive Timestamp
  | valid (date : Int)
  | malformed (raw : String)

/-- One record of a stargazers page.  With the `star+json` media type each
item is a dict whose `starred_at` field may be absent (modelled `none`;
the empty string, equally falsy under `if sa:`, is folded into this case)
or present. -/
structure StarRecord where
  starred_at : Option Timestamp

/-- Result of `datetime.fromisoformat(sa.replace("Z", "+00:00")).date()`
inside the collector's `try` block. -/
def parse_starred_at : Timestamp → Option Int
  | .valid d => some d
  | .malformed _ => none

/-- Decoded JSON body of one stargazers page, as far as the collector
inspects it: either a list of records or anything that is not a list
(`if not isinstance(data, list)`). -/
inductive Body
  | list (records : List StarRecord)
  | nonList

/-- Value returned by the fetchers: the parsed body on success, or the
`{"__error__": msg}` dictionary. -/
inductive FetchResult
  | ok (body : Body)
  | err (msg : String)

/-- What the wrapped `request.urlopen` + `json.load` call does: succeed
with a body, raise `error.HTTPError` (non-2xx status), or raise any other
exception (transport failure, timeout, malformed JSON, ...). -/
inductive HttpOutcome
  | success (body : Body)
  | httpError (code : Nat) (reason : String)
  | failure (msg : String)

/-- `fetch_json` (10s timeout, 300s cache): returns the parsed JSON, or
normalises `HTTPError` to `{"__error__": f"HTTPError: {e.code} {e.reason}"}`
and every other exception to `{"__error__": str(e)}`. -/
def fetch_json : HttpOutcome → FetchResult
  | .success b => .ok b
  | .httpError c r => .err ("HTTPError: " ++ toString c ++ " " ++ r)
  | .failure m => .err m

/-- `fetch_json_with_headers` (20s timeout, 3600s cache): identical failure
normalisation to `fetch_json`. -/
def fetch_json_with_headers : HttpOutcome → FetchResult
  | .success b => .ok b
  | .httpError c r => .err ("HTTPError: " ++ toString c ++ " " ++ r)
  | .failure m => .err m

/-! ### Paginated collector (`get_stargazer_dates`)

The loop `for page in range(1, max_pages + 1)` is modelled with the number
of pages still allowed as fuel; `src` maps a page number to the fetch
result for that page's URL. -/

/-- Per-page record extraction: the inner `for item in data` loop.
`item.get("starred_at")` absent (or falsy) skips the record; a present but
unparsable timestamp hits the `except` and `continue`s; otherwise the
parsed date is appended. -/
def extract_page (records : List StarRecord) : List Int :=
  records.filterMap (fun item => item.starred_at.bind parse_starred_at)

/-- The page loop of `get_stargazer_dates`: starting at `page` with `fuel`
page requests still allowed and `acc` the dates collected so far.
An error dict is returned as-is (`Except.error`); a non-list body or an
empty list breaks out of the loop. -/
def collect_pages (src : Nat → FetchResult) :
    Nat → Nat → List Int → Except String (List Int)
  | _, 0, acc => .ok acc
  | page, fuel + 1, acc =>
    match src page with
    | .err m => .error m
    | .ok .nonList => .ok acc
    | .ok (.list records) =>
      if records.isEmpty then .ok acc
      else collect_pages src (page + 1) fuel (acc ++ extract_page records)

/-- Return value of `get_stargazer_dates` on the non-error path:
`{"dates": [...], "truncated": bool}`. -/
structure CollectionOutcome where
  dates : List Int
  truncated : Bool
deriving DecidableEq

/-- `get_stargazer_dates(full_name, max_pages)`: run the page loop from
page 1, then set `truncated = len(starred_dates) >= max_pages * 100`. -/
def get_stargazer_dates (src : Nat → FetchResult) (max_pages : Nat) :
    Except String CollectionOutcome :=
  match collect_pages src 1 max_pages [] with
  | .error m => .error m
  | .ok ds => .ok ⟨ds, decide (max_pages * 100 ≤ ds.length)⟩

/-! ### Date bucketer and cumulative series builder (module level,
lines 179-203 of `src/streamlit_app.py`) -/

/-- `Counter(dates)` as its list of `(key, count)` items: one entry per
distinct date with its multiplicity.  (Python iterates items in insertion
order; `List.dedup` keeps another occurrence of each key, but the only
consumer below is an order-independent sum.) -/
def counter (dates : List Int) : List (Int × Nat) :=
  dates.dedup.map (fun d => (d, dates.count d))

/-- `cnt.get(day_str, 0)`: the multiplicity of `d` in `dates`. -/
def counterGet (dates : List Int) (d : Int) : Nat :=
  dates.count d

/-- The `total_before` loop: sum of the counter's values over the keys
strictly earlier than `cutoff`.  (The `try/except` around re-parsing each
key never fires, since every key was produced by `d.isoformat()`.) -/
def total_before (dates : List Int) (cutoff : Int) : Nat :=
  (((counter dates).filter (fun p => decide (p.1 < cutoff))).map Prod.snd).sum

/-- The `days` list: `[cutoff + timedelta(days=i) for i in
range((today - cutoff).days + 1)]`.  Python's `range` of a non-positive
bound is empty, matching `Int.toNat`. -/
def days_list (cutoff today : Int) : List Int :=
  (List.range (today - cutoff + 1).toNat).map (fun i : Nat => cutoff + (i : Int))

/-- The accumulation loop: `total += cnt.get(day_str, 0)` then
`cum_values.append({"date": day, "stars": total})`. -/
def cum_loop (cnt : Int → Nat) : Nat → List Int → List (Int × Nat)
  | _, [] => []
  | total, day :: rest =>
    (day, total + cnt day) :: cum_loop cnt (total + cnt day) rest

/-- The whole module-level series construction for a window
`[cutoff, today]`: bucket the dates, seed the running total with
`total_before`, and walk the `days` list. -/
def cum_values (dates : List Int) (cutoff today : Int) : List (Int × Nat) :=
  cum_loop (counterGet dates) (total_before dates cutoff) (days_list cutoff today)

/-- The series the script actually builds: the window is hardcoded to
`cutoff = today - timedelta(days=5 * 365)` with `today = utcnow().date()`;
no other window can be requested. -/
def star_history_series (dates : List Int) (today : Int) : List (Int × Nat) :=
  cum_values dates (today - 5 * 365) today

/-! ### Truncation reconciler (module level, lines 210-223) -/

/-- `int(df["stars"].iloc[-1])`: the cumulative value at the series' last
entry (the default is irrelevant for the non-empty series the script
builds). -/
def lastValue (series : List (Int × Nat)) : Nat :=
  (series.getLastD (0, 0)).2

/-- `df.at[df.index[-1], "stars"] = actual_total`: replace the value of
the final entry, keeping its date.  (The dates of the series are pairwise
distinct, so the label-based pandas write touches exactly the last row.) -/
def set_last : List (Int × Nat) → Nat → List (Int × Nat)
  | [], _ => []
  | [p], t => [(p.1, t)]
  | p :: q :: rest, t => p :: set_last (q :: rest) t

/-- The reconciliation block: only under `if sg.get("truncated")`, and with
`actual_total = repo_obj.get("stargazers_count") or None` (so a missing
repo object, a missing field, and a zero count all yield `None`), the last
value is overwritten exactly when `actual_total` is truthy and exceeds the
computed last value.  `repoStars` is the raw `stargazers_count` when the
repo object was found and the field present. -/
def reconcile (series : List (Int × Nat)) (truncated : Bool)
    (repoStars : Option Nat) : List (Int × Nat) :=
  if truncated then
    match repoStars with
    | some n =>
      if n ≠ 0 ∧ lastValue series < n then set_last series n else series
    | none => series
  else series

/-! ### Mock page sources

These play the role of the test doubles the spec's testable properties
describe: a source of full pages only, a source of three full pages
followed by an empty page, and a one-page source mixing malformed and
valid timestamps.  The `tail` parameter supplies the responses for the
pages after the stopping point, so a run whose result is independent of
`tail` provably never requested those pages. -/

/-- Sample bucket date used by the mock sources: 2020-06-01. -/
def dSample : Int := dateOrdinal 2020 6 1

/-- A page record whose `starred_at` is a valid instant on date `d`. -/
def good_record (d : Int) : StarRecord := ⟨some (.valid d)⟩

/-- A page record whose `starred_at` is present but unparsable. -/
def bad_record : StarRecord := ⟨some (.malformed "not-a-timestamp")⟩

/-- A full page: 100 records with valid timestamps. -/
def full_page : List StarRecord := List.replicate 100 (good_record dSample)

/-- Mock source whose every page is full: collection must run into the
page cap. -/
def full_src : Nat → FetchResult := fun _ => .ok (.list full_page)

/-- Mock source returning three full pages, then an empty page; pages
after the empty one are drawn from `tail`. -/
def src_three_then_empty (tail : Nat → FetchResult) : Nat → FetchResult
  | 1 => .ok (.list full_page)
  | 2 => .ok (.list full_page)
  | 3 => .ok (.list full_page)
  | 4 => .ok (.list [])
  | n => tail n

/-- Mock source returning one page holding a malformed-timestamp record
followed by two valid records, then an empty page. -/
def src_mixed_page (tail : Nat → FetchResult) : Nat → FetchResult
  | 1 => .ok (.list [bad_record,
      good_record (dateOrdinal 2021 3 4), good_record (dateOrdinal 2021 3 5)])
  | 2 => .ok (.list [])
  | n => tail n

/-! ### Helper lemmas about the series builder -/

lemma cum_loop_length (cnt : Int → Nat) (t : Nat) (ds : List Int) :
    (cum_loop cnt t ds).length = ds.length := by
  induction ds generalizing t with
  | nil => rfl
  | cons d rest ih => simp [cum_loop, ih]

lemma cum_loop_getElem? (cnt : Int → Nat) :
    ∀ (ds : List Int) (t : Nat) (i : Nat), i < ds.length →
      (cum_loop cnt t ds)[i]? =
        ds[i]?.map (fun d => (d, t + ((ds.take (i + 1)).map cnt).sum))
  | [], _, i, h => by simp at h
  | d :: rest, t, 0, _ => by simp [cum_loop]
  | d :: rest, t, i + 1, h => by
    have hlt : i < rest.length := by simpa using h
    have ih := cum_loop_getElem? cnt rest (t + cnt d) i hlt
    simp only [cum_loop, List.getElem?_cons_succ, List.take_succ_cons,
      List.map_cons, List.sum_cons, ih, List.getElem?_eq_getElem hlt,
      Option.map_some']
    exact congrArg _ (congrArg _ (Nat.add_assoc t (cnt d) _))

lemma days_list_length (s e : Int) :
    (days_list s e).length = (e - s + 1).toNat := by
  simp [days_list]

lemma days_list_getElem? (s e : Int) (i : Nat) (h : i < (e - s + 1).toNat) :
    (days_list s e)[i]? = some (s + (i : Int)) := by
  simp [days_list, List.getElem?_range h]

lemma days_list_take (s e : Int) (i : Nat) (h : i + 1 ≤ (e - s + 1).toNat) :
    (days_list s e).take (i + 1) =
      (List.range (i + 1)).map (fun j : Nat => s + (j : Int)) := by
  rw [days_list, ← List.map_take, List.take_range, Nat.min_eq_left h]

lemma counterGet_eq_countP (dates : List Int) (x : Int) :
    counterGet dates x = dates.countP (fun d => decide (d = x)) := by
  rw [counterGet, List.count_eq_countP]
  exact List.countP_congr (fun a _ => by simp)

lemma countP_window_base (dates : List Int) (s : Int) :
    dates.countP (fun d => decide (s ≤ d ∧ d ≤ s)) =
      dates.countP (fun d => decide (d = s)) := by
  refine List.countP_congr (fun a _ => ?_)
  simp only [decide_eq_true_eq]
  omega

lemma countP_window_succ (dates : List Int) (s e : Int) (h : s ≤ e + 1) :
    dates.countP (fun d => decide (s ≤ d ∧ d ≤ e + 1)) =
      dates.countP (fun d => decide (s ≤ d ∧ d ≤ e)) +
        dates.countP (fun d => decide (d = e + 1)) := by
  induction dates with
  | nil => rfl
  | cons x rest ih =>
    simp only [List.countP_cons, ih, decide_eq_true_eq]
    split_ifs <;> omega

lemma sum_range_counterGet (dates : List Int) (s : Int) :
    ∀ i : Nat,
      ((List.range (i + 1)).map (fun j : Nat => counterGet dates (s + (j : Int)))).sum
        = dates.countP (fun d => decide (s ≤ d ∧ d ≤ s + (i : Int))) := by
  intro i
  induction i with
  | zero =>
    simp only [List.range_succ, List.range_zero, List.nil_append, List.map_cons,
      List.map_nil, List.sum_cons, List.sum_nil, Nat.cast_zero, Int.add_zero,
      Nat.add_zero]
    rw [counterGet_eq_countP, countP_window_base]
  | succ i ih =>
    rw [List.range_succ, List.map_append, List.sum_append,
      List.map_singleton, List.sum_singleton, ih]
    have hcast : ((i + 1 : Nat) : Int) = (i : Int) + 1 := by push_cast; ring
    rw [hcast, ← Int.add_assoc,
      countP_window_succ dates s (s + (i : Int)) (by omega),
      counterGet_eq_countP]

lemma total_before_eq_countP (dates : List Int) (c : Int) :
    total_before dates c = dates.countP (fun d => decide (d < c)) := by
  rw [total_before, counter, List.filter_map, List.map_map]
  have h1 : (Prod.snd ∘ fun d : Int => (d, dates.count d)) =
      fun d : Int => dates.count d := rfl
  have h2 : ((fun p : Int × Nat => decide (p.1 < c)) ∘ fun d : Int => (d, dates.count d))
      = fun d : Int => decide (d < c) := rfl
  rw [h1, h2]
  exact List.sum_map_count_dedup_filter_eq_countP _ dates

lemma cum_values_length (dates : List Int) (s e : Int) :
    (cum_values dates s e).length = (e - s + 1).toNat := by
  rw [cum_values, cum_loop_length, days_list_length]

lemma cum_values_getElem? (dates : List Int) (s e : Int) (i : Nat)
    (hse : s ≤ e) (hi : (i : Int) ≤ e - s) :
    (cum_values dates s e)[i]? =
      some (s + (i : Int),
        dates.countP (fun d => decide (d < s)) +
          dates.countP (fun d => decide (s ≤ d ∧ d ≤ s + (i : Int)))) := by
  have hlen : i < (days_list s e).length := by
    rw [days_list_length]; omega
  have hlen2 : i < (e - s + 1).toNat := by rw [days_list_length] at hlen; exact hlen
  rw [cum_values, cum_loop_getElem? _ _ _ _ hlen,
    days_list_take s e i (by omega),
    days_list_getElem? s e i hlen2,
    List.map_map]
  have hcomp : ((counterGet dates) ∘ fun j : Nat => s + (j : Int))
      = fun j : Nat => counterGet dates (s + (j : Int)) := rfl
  rw [hcomp, Option.map_some', sum_range_counterGet dates s i,
    total_before_eq_countP]

/-! ### Helper lemmas about the reconciler -/

lemma set_last_eq : ∀ (series : List (Int × Nat)) (t : Nat), series ≠ [] →
    set_last series t = series.dropLast ++ [((series.getLastD (0, 0)).1, t)]
  | [], _, h => absurd rfl h
  | [p], t, _ => by simp [set_last]
  | p :: q :: rest, t, _ => by
    have ih := set_last_eq (q :: rest) t (by simp)
    simp only [set_last, ih, List.dropLast_cons₂, List.cons_append,
      List.getLastD_cons]

lemma lastValue_set_last (series : List (Int × Nat)) (t : Nat)
    (h : series ≠ []) : lastValue (set_last series t) = t := by
  rw [set_last_eq series t h, lastValue, List.getLastD_concat]

lemma lastValue_eq_getLast (series : List (Int × Nat)) (h : series ≠ []) :
    lastValue series = (series.getLast h).2 := by
  rw [lastValue, List.getLastD_eq_getLast?, List.getLast?_eq_getLast series h,
    Option.getD_some]

lemma chain'_le_set_last (series : List (Int × Nat)) (t : Nat)
    (hch : List.Chain' (fun p q => p.2 ≤ q.2) series)
    (hle : lastValue series ≤ t) :
    List.Chain' (fun p q => p.2 ≤ q.2) (set_last series t) := by
  rcases eq_or_ne series [] with h | h
  · subst h; simp [set_last]
  rw [set_last_eq series t h]
  have hsplit := hch
  rw [← List.dropLast_concat_getLast h, List.chain'_append] at hsplit
  refine List.chain'_append.2 ⟨hsplit.1, List.chain'_singleton _, ?_⟩
  intro x hx y hy
  have hxy := hsplit.2.2 x hx (series.getLast h) (by simp)
  rw [List.head?_cons, Option.mem_def, Option.some_inj] at hy
  subst hy
  calc x.2 ≤ (series.getLast h).2 := hxy
    _ = lastValue series := (lastValue_eq_getLast series h).symm
    _ ≤ t := hle

/-! ### Helper lemmas about the collector -/

lemma extract_page_replicate_good (n : Nat) (d : Int) :
    extract_page (List.replicate n (good_record d)) = List.replicate n d := by
  induction n with
  | zero => rfl
  | succ n ih =>
    rw [List.replicate_succ, List.replicate_succ, extract_page,
      List.filterMap_cons]
    exact congrArg _ ih

lemma collect_pages_full_src (fuel : Nat) :
    ∀ (page : Nat) (acc : List Int),
      collect_pages full_src page fuel acc =
        .ok (acc ++ List.replicate (fuel * 100) dSample) := by
  induction fuel with
  | zero => intro page acc; simp [collect_pages]
  | succ fuel ih =>
    intro page acc
    have hne : full_page.isEmpty = false := by
      simp [full_page]
    rw [collect_pages]
    show (if full_page.isEmpty then Except.ok acc
        else collect_pages full_src (page + 1) fuel (acc ++ extract_page full_page))
      = Except.ok (acc ++ List.replicate ((fuel + 1) * 100) dSample)
    rw [hne, if_neg (by simp), ih (page + 1) (acc ++ extract_page full_page)]
    rw [full_page, extract_page_replicate_good, List.append_assoc,
      List.append_replicate_replicate]
    have : 100 + fuel * 100 = (fuel + 1) * 100 := by ring
    rw [this]

lemma collect_pages_no_error (src : Nat → FetchResult)
    (h : ∀ p m, src p ≠ .err m) :
    ∀ (fuel page : Nat) (acc : List Int),
      ∃ ds, collect_pages src page fuel acc = .ok ds := by
  intro fuel
  induction fuel with
  | zero => intro page acc; exact ⟨acc, rfl⟩
  | succ fuel ih =>
    intro page acc
    cases hsrc : src page with
    | err m => exact absurd hsrc (h page m)
    | ok b =>
      cases b with
      | nonList => exact ⟨acc, by rw [collect_pages, hsrc]⟩
      | list records =>
        cases hrec : records.isEmpty with
        | true => exact ⟨acc, by rw [collect_pages, hsrc]; simp [hrec]⟩
        | false =>
          obtain ⟨ds, hds⟩ := ih (page + 1) (acc ++ extract_page records)
          exact ⟨ds, by rw [collect_pages, hsrc]; simp [hrec]; exact hds⟩

/-! ### The claims -/

/-- C1: for every bucketed date multiset and window `[s, e]` with `s ≤ e`,
the builder emits at day `s + i` the value (events strictly before `s`) +
(events in `[s, s + i]`); the concrete example
`[2023-01-01, 2023-01-01, 2023-01-03]` over `[2023-01-01, 2023-01-03]`
yields `[(01-01, 2), (01-02, 2), (01-03, 3)]`; and when every event
predates `s`, the first value is the total event count and the series
stays flat at it. -/
theorem C1_cumulative_builder :
    (∀ (dates : List Int) (s e : Int) (i : Nat), s ≤ e → (i : Int) ≤ e - s →
      (cum_values dates s e)[i]? =
        some (s + (i : Int),
          (dates.filter (fun d => decide (d < s))).length +
            (dates.filter (fun d => decide (s ≤ d ∧ d ≤ s + (i : Int)))).length))
    ∧ cum_values [dateOrdinal 2023 1 1, dateOrdinal 2023 1 1, dateOrdinal 2023 1 3]
        (dateOrdinal 2023 1 1) (dateOrdinal 2023 1 3) =
      [(dateOrdinal 2023 1 1, 2), (dateOrdinal 2023 1 2, 2), (dateOrdinal 2023 1 3, 3)]
    ∧ (∀ (dates : List Int) (s e : Int), s ≤ e → (∀ d ∈ dates, d < s) →
        ((cum_values dates s e)[0]?).map Prod.snd = some dates.length
        ∧ ∀ p ∈ cum_values dates s e, p.2 = dates.length) := by
  refine ⟨?_, by decide, ?_⟩
  · intro dates s e i hse hi
    rw [cum_values_getElem? dates s e i hse hi, List.countP_eq_length_filter,
      List.countP_eq_length_filter]
  · intro dates s e hse hall
    have hbefore : dates.countP (fun d => decide (d < s)) = dates.length :=
      List.countP_eq_length.2 (fun a ha => by simpa using hall a ha)
    have hwin : ∀ i : Nat,
        dates.countP (fun d => decide (s ≤ d ∧ d ≤ s + (i : Int))) = 0 := by
      intro i
      refine List.countP_eq_zero.2 (fun a ha => ?_)
      have := hall a ha
      simp only [decide_eq_true_eq]
      omega
    constructor
    · rw [cum_values_getElem? dates s e 0 hse (by omega), hbefore, hwin 0]
      simp
    · intro p hp
      obtain ⟨i, hip⟩ := List.mem_iff_getElem?.1 hp
      have hilen : i < (cum_values dates s e).length := by
        obtain ⟨hlt, -⟩ := List.getElem?_eq_some.1 hip
        exact hlt
      rw [cum_values_length] at hilen
      rw [cum_values_getElem? dates s e i hse (by omega), hbefore, hwin i,
        Option.some_inj] at hip
      rw [← hip]
      rfl

/-- C1 witness: the general formula of `C1_cumulative_builder`
instantiated at `dates = [2]`, window `[1, 3]`, day index 1. -/
theorem C1_cumulative_builder_witness :
    (1 : Int) ≤ 3 ∧ ((1 : Nat) : Int) ≤ 3 - 1 ∧
      (cum_values [(2 : Int)] 1 3)[(1 : Nat)]? =
        some (1 + ((1 : Nat) : Int),
          (([(2 : Int)].filter (fun d => decide (d < 1))).length +
            ([(2 : Int)].filter
              (fun d => decide (1 ≤ d ∧ d ≤ 1 + ((1 : Nat) : Int)))).length)) :=
  ⟨by decide, by decide,
    C1_cumulative_builder.1 [2] 1 3 1 (by decide) (by decide)⟩

/-- C2: for every window `[s, e]` with `s ≤ e` the series has exactly
`(e - s).days + 1` entries, the `i`-th entry is dated `s + i` (consecutive
days, no gaps), and the cumulative values are monotonically
non-decreasing. -/
theorem C2_series_shape :
    ∀ (dates : List Int) (s e : Int), s ≤ e →
      (cum_values dates s e).length = (e - s).toNat + 1
      ∧ (∀ i : Nat, i < (cum_values dates s e).length →
          ((cum_values dates s e)[i]?).map Prod.fst = some (s + (i : Int)))
      ∧ (∀ (i j : Nat) (p q : Int × Nat), i ≤ j →
          (cum_values dates s e)[i]? = some p →
          (cum_values dates s e)[j]? = some q → p.2 ≤ q.2) := by
  intro dates s e hse
  refine ⟨?_, ?_, ?_⟩
  · rw [cum_values_length]; omega
  · intro i hi
    rw [cum_values_length] at hi
    rw [cum_values_getElem? dates s e i hse (by omega)]
    simp
  · intro i j p q hij hp hq
    have hjlen : j < (cum_values dates s e).length := by
      obtain ⟨hlt, -⟩ := List.getElem?_eq_some.1 hq
      exact hlt
    rw [cum_values_length] at hjlen
    rw [cum_values_getElem? dates s e j hse (by omega), Option.some_inj] at hq
    rw [cum_values_getElem? dates s e i hse (by omega), Option.some_inj] at hp
    rw [← hp, ← hq]
    refine Nat.add_le_add_left (List.countP_mono_left (fun x _ hx => ?_)) _
    simp only [decide_eq_true_eq] at hx ⊢
    omega

/-- C2 witness: `C2_series_shape` instantiated at the empty event list and
the one-day window `[0, 0]`. -/
theorem C2_series_shape_witness :
    (0 : Int) ≤ 0 ∧
      (cum_values [] 0 0).length = ((0 : Int) - 0).toNat + 1 :=
  ⟨le_refl 0, (C2_series_shape [] 0 0 (le_refl 0)).1⟩

/-- C3: on a non-empty series, reconciliation replaces the final entry's
value with the authoritative total exactly when `truncated` is true, the
total is present, positive, and exceeds the computed final value — leaving
every earlier entry unchanged (`dropLast` is preserved verbatim) — and in
every other case, in particular whenever `truncated` is false, the series
is returned completely unmodified. -/
theorem C3_reconcile_exact (series : List (Int × Nat)) (tr : Bool)
    (raw : Option Nat) (hne : series ≠ []) :
    (∀ n : Nat, raw = some n → tr = true → 0 < n → lastValue series < n →
      reconcile series tr raw =
        series.dropLast ++ [((series.getLastD (0, 0)).1, n)])
    ∧ (reconcile series tr raw ≠ series →
        tr = true ∧ ∃ n : Nat, raw = some n ∧ 0 < n ∧ lastValue series < n)
    ∧ (tr = false → reconcile series tr raw = series) := by
  refine ⟨?_, ?_, ?_⟩
  · intro n hraw htr hpos hlt
    subst hraw; subst htr
    rw [reconcile, if_pos rfl, if_pos ⟨by omega, hlt⟩]
    exact set_last_eq series n hne
  · intro hmod
    cases tr with
    | false => exact absurd (by rw [reconcile.eq_def, if_neg Bool.false_ne_true]) hmod
    | true =>
      refine ⟨rfl, ?_⟩
      cases raw with
      | none => exact absurd (by rw [reconcile, if_pos rfl]) hmod
      | some n =>
        by_cases hc : n ≠ 0 ∧ lastValue series < n
        · exact ⟨n, rfl, by omega, hc.2⟩
        · exact absurd (by rw [reconcile, if_pos rfl, if_neg hc]) hmod
  · intro htr
    subst htr
    rw [reconcile.eq_def, if_neg Bool.false_ne_true]

/-- C3 witness: `C3_reconcile_exact` at the one-entry series `[(0, 1)]`
with `truncated = true` and authoritative total 5. -/
theorem C3_reconcile_exact_witness :
    ([((0 : Int), 1)] : List (Int × Nat)) ≠ [] ∧ 0 < 5 ∧
      lastValue [((0 : Int), 1)] < 5 ∧
      reconcile [((0 : Int), 1)] true (some 5) =
        [((0 : Int), 1)].dropLast ++ [((([((0 : Int), 1)].getLastD (0, 0)).1, 5))] :=
  ⟨by simp, by decide, by decide,
    (C3_reconcile_exact [((0 : Int), 1)] true (some 5) (by simp)).1 5 rfl rfl
      (by decide) (by decide)⟩

/-- C4: whenever truncation occurred and a positive authoritative total is
available, the value the reconciled series reports at the window end is at
least that total. -/
theorem C4_end_value_ge_total (series : List (Int × Nat)) (n : Nat)
    (hne : series ≠ []) (hpos : 0 < n) :
    n ≤ lastValue (reconcile series true (some n)) := by
  rw [reconcile, if_pos rfl]
  by_cases hlt : lastValue series < n
  · rw [if_pos ⟨by omega, hlt⟩, lastValue_set_last series n hne]
  · rw [if_neg (fun hc => hlt hc.2)]
    omega

/-- C4 witness: `C4_end_value_ge_total` at the series `[(0, 5)]` with
authoritative total 7. -/
theorem C4_end_value_ge_total_witness :
    ([((0 : Int), 5)] : List (Int × Nat)) ≠ [] ∧ 0 < 7 ∧
      7 ≤ lastValue (reconcile [((0 : Int), 5)] true (some 7)) :=
  ⟨by simp, by decide, C4_end_value_ge_total [((0 : Int), 5)] 7 (by simp) (by decide)⟩

/-- C5: on every run that returns without an operation-level error, the
`truncated` flag is true iff the number of collected records reached
`maxPages * 100`; and a source serving only full pages yields exactly
`maxPages * 100` records with `truncated = true`. -/
theorem C5_truncation_flag :
    (∀ (src : Nat → FetchResult) (maxPages : Nat) (out : CollectionOutcome),
      get_stargazer_dates src maxPages = .ok out →
      (out.truncated = true ↔ maxPages * 100 ≤ out.dates.length))
    ∧ (∀ maxPages : Nat,
        get_stargazer_dates full_src maxPages =
          .ok ⟨List.replicate (maxPages * 100) dSample, true⟩) := by
  constructor
  · intro src maxPages out h
    rw [get_stargazer_dates] at h
    cases hc : collect_pages src 1 maxPages [] with
    | error m => rw [hc] at h; exact absurd h (by simp)
    | ok ds =>
      rw [hc, Except.ok.injEq] at h
      rw [← h]
      exact decide_eq_true_iff
  · intro maxPages
    rw [get_stargazer_dates, collect_pages_full_src maxPages 1 [],
      List.nil_append, Except.ok.injEq, CollectionOutcome.mk.injEq]
    exact ⟨rfl, by simp⟩

/-- C5 witness: ten always-full pages give 1000 records and
`truncated = true`, and the iff of `C5_truncation_flag` holds there. -/
theorem C5_truncation_flag_witness :
    get_stargazer_dates full_src 10 =
      .ok ⟨List.replicate (10 * 100) dSample, true⟩ ∧
    ((⟨List.replicate (10 * 100) dSample, true⟩ : CollectionOutcome).truncated = true ↔
      10 * 100 ≤ (⟨List.replicate (10 * 100) dSample, true⟩ : CollectionOutcome).dates.length) :=
  ⟨C5_truncation_flag.2 10,
    C5_truncation_flag.1 full_src 10 _ (C5_truncation_flag.2 10)⟩

set_option maxRecDepth 8000 in
/-- C6: a source serving three full pages and then an empty page stops at
the empty page as a normal end of data — 300 records, `truncated = false`
— and no page beyond the empty one is ever requested: the outcome is
independent of what the source would serve there. -/
theorem C6_stops_at_empty_page :
    ∀ tail : Nat → FetchResult,
      get_stargazer_dates (src_three_then_empty tail) 10 =
        .ok ⟨List.replicate 300 dSample, false⟩
      ∧ (List.replicate 300 dSample).length = 300 :=
  fun _ => ⟨rfl, rfl⟩

/-- C7: the fetchers are total functions into `FetchResult` — failure is
data, never control flow: every non-success outcome (transport failure,
timeout, non-2xx status, malformed JSON) is returned as an error value
carrying a message, and for HTTP status errors that message is
`"HTTPError: "` followed by the numeric status code, a space, and the
reason phrase — so it contains both. -/
theorem C7_fetchers_never_raise :
    ∀ o : HttpOutcome,
      ((∀ b, o ≠ .success b) →
        ∃ m, fetch_json o = .err m ∧ fetch_json_with_headers o = .err m)
      ∧ (∀ (c : Nat) (r : String), o = .httpError c r →
          ∃ pre mid,
            fetch_json o = .err (pre ++ toString c ++ mid ++ r) ∧
            fetch_json_with_headers o = .err (pre ++ toString c ++ mid ++ r)) := by
  intro o
  constructor
  · intro h
    cases o with
    | success b => exact absurd rfl (h b)
    | httpError c r => exact ⟨_, rfl, rfl⟩
    | failure m => exact ⟨m, rfl, rfl⟩
  · intro c r h
    subst h
    exact ⟨"HTTPError: ", " ", rfl, rfl⟩

/-- C7 witness: `C7_fetchers_never_raise` at the outcome
`HTTPError 404 Not Found`. -/
theorem C7_fetchers_never_raise_witness :
    (∀ b, HttpOutcome.httpError 404 "Not Found" ≠ .success b) ∧
    ∃ m, fetch_json (.httpError 404 "Not Found") = .err m ∧
      fetch_json_with_headers (.httpError 404 "Not Found") = .err m :=
  ⟨fun _ h => HttpOutcome.noConfusion h,
    (C7_fetchers_never_raise (.httpError 404 "Not Found")).1
      (fun _ h => HttpOutcome.noConfusion h)⟩

set_option maxRecDepth 8000 in
/-- C8: a record with an absent `starred_at`, and a record with a present
but unparsable one, are skipped silently — they contribute nothing to the
extracted dates; a source that never returns an error dict always yields
an `ok` outcome (no operation-level error); and the concrete page holding
one malformed and two valid records yields exactly those two events. -/
theorem C8_malformed_records_skipped :
    (∀ records : List StarRecord,
      extract_page (⟨none⟩ :: records) = extract_page records)
    ∧ (∀ (raw : String) (records : List StarRecord),
        extract_page (⟨some (.malformed raw)⟩ :: records) = extract_page records)
    ∧ (∀ (src : Nat → FetchResult) (maxPages : Nat),
        (∀ p m, src p ≠ .err m) →
        ∃ out, get_stargazer_dates src maxPages = .ok out)
    ∧ (∀ tail : Nat → FetchResult,
        get_stargazer_dates (src_mixed_page tail) 10 =
          .ok ⟨[dateOrdinal 2021 3 4, dateOrdinal 2021 3 5], false⟩) := by
  refine ⟨fun records => rfl, fun raw records => rfl, ?_, fun tail => rfl⟩
  intro src maxPages h
  obtain ⟨ds, hds⟩ := collect_pages_no_error src h maxPages 1 []
  exact ⟨_, by rw [get_stargazer_dates, hds]⟩

/-- C8 witness: the no-operation-level-error conjunct of
`C8_malformed_records_skipped` at a source whose pages all decode to a
non-list body. -/
theorem C8_malformed_records_skipped_witness :
    (∀ p m, (fun _ : Nat => FetchResult.ok .nonList) p ≠ .err m) ∧
    ∃ out, get_stargazer_dates (fun _ : Nat => FetchResult.ok .nonList) 10 = .ok out :=
  ⟨fun _ _ h => FetchResult.noConfusion h,
    C8_malformed_records_skipped.2.2.1 (fun _ => .ok .nonList) 10
      (fun _ _ h => FetchResult.noConfusion h)⟩

/-- C9 counterexample: the script's builder has no window-mode parameter;
for the events `[2023-01-01, 2023-01-01, 2023-01-03]` no call (at any
ambient `today`) produces the full-history series over
`[2023-01-01, 2023-01-03]`: every produced series has 1826 entries, the
full-history one has 3. -/
theorem C9_no_full_history_mode :
    ¬ ∃ today : Int,
      star_history_series
          [dateOrdinal 2023 1 1, dateOrdinal 2023 1 1, dateOrdinal 2023 1 3] today
        = cum_values [dateOrdinal 2023 1 1, dateOrdinal 2023 1 1, dateOrdinal 2023 1 3]
            (dateOrdinal 2023 1 1) (dateOrdinal 2023 1 3) := by
  rintro ⟨today, h⟩
  have h1 : (star_history_series
      [dateOrdinal 2023 1 1, dateOrdinal 2023 1 1, dateOrdinal 2023 1 3] today).length
      = 1826 := by
    rw [star_history_series, cum_values_length]
    omega
  have h2 : (cum_values [dateOrdinal 2023 1 1, dateOrdinal 2023 1 1, dateOrdinal 2023 1 3]
      (dateOrdinal 2023 1 1) (dateOrdinal 2023 1 3)).length = 3 := by
    rw [cum_values_length]
    decide
  rw [h] at h1
  omega

/-- C9 amended: the builder offers a single, hardcoded window policy —
every call uses the trailing window `[today - 5 * 365 days, today]` ending
at the UTC date at call time (1826 consecutive days), and no parameter
selects a full-history window. -/
theorem C9_trailing_window_only :
    ∀ (dates : List Int) (today : Int),
      star_history_series dates today = cum_values dates (today - 5 * 365) today
      ∧ (star_history_series dates today).length = 1826
      ∧ (∀ i : Nat, i < 1826 →
          ((star_history_series dates today)[i]?).map Prod.fst =
            some (today - 5 * 365 + (i : Int))) := by
  intro dates today
  refine ⟨rfl, ?_, ?_⟩
  · rw [star_history_series, cum_values_length]
    omega
  · intro i hi
    rw [star_history_series,
      cum_values_getElem? dates (today - 5 * 365) today i (by omega) (by omega)]
    simp

/-- C9 witness: `C9_trailing_window_only` at the empty event list,
`today = 0`, first entry. -/
theorem C9_trailing_window_only_witness :
    (0 : Nat) < 1826 ∧
      ((star_history_series [] 0)[(0 : Nat)]?).map Prod.fst =
        some ((0 : Int) - 5 * 365 + ((0 : Nat) : Int)) :=
  ⟨by decide, (C9_trailing_window_only [] 0).2.2 0 (by decide)⟩

/-- C10: reconciliation preserves monotonicity — if the series' values are
non-decreasing, they still are after reconciliation with any flag and any
authoritative total, since the only modification is replacing the final
value with a strictly larger one. -/
theorem C10_reconcile_preserves_mono
    (series : List (Int × Nat)) (tr : Bool) (raw : Option Nat)
    (hmono : List.Chain' (fun p q => p.2 ≤ q.2) series) :
    List.Chain' (fun p q => p.2 ≤ q.2) (reconcile series tr raw) := by
  cases tr with
  | false => rw [reconcile.eq_def, if_neg Bool.false_ne_true]; exact hmono
  | true =>
    cases raw with
    | none => rw [reconcile, if_pos rfl]; exact hmono
    | some n =>
      rw [reconcile, if_pos rfl]
      by_cases hc : n ≠ 0 ∧ lastValue series < n
      · rw [if_pos hc]
        exact chain'_le_set_last series n hmono (le_of_lt hc.2)
      · rw [if_neg hc]
        exact hmono

/-- C10 witness: `C10_reconcile_preserves_mono` on the monotone series
`[(0, 1), (1, 2)]` with `truncated = true` and total 9. -/
theorem C10_reconcile_preserves_mono_witness :
    List.Chain' (fun p q : Int × Nat => p.2 ≤ q.2) [((0 : Int), 1), (1, 2)] ∧
      List.Chain' (fun p q : Int × Nat => p.2 ≤ q.2)
        (reconcile [((0 : Int), 1), (1, 2)] true (some 9)) :=
  ⟨List.chain'_cons.2 ⟨by norm_num, List.chain'_singleton _⟩,
    C10_reconcile_preserves_mono [((0 : Int), 1), (1, 2)] true (some 9)
      (List.chain'_cons.2 ⟨by norm_num, List.chain'_singleton _⟩)⟩
